import Mathlib

/-!
Shallow embedding of the steam client's inventory pagination and
confirmation-protocol core, together with proofs of its specified
properties.  Byte strings are modelled as `List Nat` (each entry a byte
value), machine words as `Nat` reduced modulo `2 ^ 32` or `2 ^ 64` where
the source wraps, and Go's `int64` timestamps as `Int`.
-/

namespace Steam

/-- Reduce a value to a 32-bit word. -/
def w32 (n : Nat) : Nat := n % 4294967296

/-- Rotate a 32-bit word left by `b` bits. -/
def rotl (b n : Nat) : Nat := (n * 2 ^ b + n / 2 ^ (32 - b)) % 4294967296

/-- Big-endian byte serialisation of `v` into `n` bytes. -/
def beBytes : Nat → Nat → List Nat
  | 0, _ => []
  | n + 1, v => beBytes n (v / 256) ++ [v % 256]

/-- Group a byte list into big-endian 32-bit words (four bytes each). -/
def bytesToWords : List Nat → List Nat
  | b1 :: b2 :: b3 :: b4 :: rest =>
      (b1 * 16777216 + b2 * 65536 + b3 * 256 + b4) :: bytesToWords rest
  | _ => []

/-- Group a word list into 16-word blocks. -/
def toBlocks16 : List Nat → List (List Nat)
  | w0 :: w1 :: w2 :: w3 :: w4 :: w5 :: w6 :: w7 ::
    w8 :: w9 :: w10 :: w11 :: w12 :: w13 :: w14 :: w15 :: rest =>
      [w0, w1, w2, w3, w4, w5, w6, w7, w8, w9, w10, w11, w12, w13, w14, w15]
        :: toBlocks16 rest
  | _ => []

/-- Recent-first message-schedule extension for SHA-1: prepend `fuel`
further words, each the rotation of the xor of the words 3, 8, 14 and 16
positions back. -/
def extendW : Nat → List Nat → List Nat
  | 0, ws => ws
  | n + 1, ws =>
      extendW n (rotl 1 ((((ws[2]?.getD 0) ^^^ (ws[7]?.getD 0)) ^^^
        (ws[13]?.getD 0)) ^^^ (ws[15]?.getD 0)) :: ws)

/-- SHA-1 round function for round `t`. -/
def sha1F (t b c d : Nat) : Nat :=
  if t < 20 then (b &&& c) ||| ((4294967295 - b) &&& d)
  else if t < 40 then (b ^^^ c) ^^^ d
  else if t < 60 then ((b &&& c) ||| (b &&& d)) ||| (c &&& d)
  else (b ^^^ c) ^^^ d

/-- SHA-1 round constant for round `t`. -/
def sha1K (t : Nat) : Nat :=
  if t < 20 then 1518500249
  else if t < 40 then 1859775393
  else if t < 60 then 2400959708
  else 3395469782

/-- Run the 80 SHA-1 rounds over the schedule `ws`. -/
def sha1Rounds : List Nat → Nat → Nat × Nat × Nat × Nat × Nat → Nat × Nat × Nat × Nat × Nat
  | [], _, st => st
  | w :: ws, t, (a, b, c, d, e) =>
      sha1Rounds ws (t + 1)
        (w32 (rotl 5 a + sha1F t b c d + e + sha1K t + w), a, rotl 30 b, c, d)

/-- One SHA-1 compression step: fold a 16-word block into the running
five-word state. -/
def sha1Compress (h : List Nat) (block : List Nat) : List Nat :=
  match h with
  | [h0, h1, h2, h3, h4] =>
      let ws := (extendW 64 block.reverse).reverse
      match sha1Rounds ws 0 (h0, h1, h2, h3, h4) with
      | (a, b, c, d, e) =>
          [w32 (h0 + a), w32 (h1 + b), w32 (h2 + c), w32 (h3 + d), w32 (h4 + e)]
  | _ => h

/-- SHA-1 of a byte list, producing the 20 digest bytes. -/
def sha1 (msg : List Nat) : List Nat :=
  let padded := msg ++ 128 :: List.replicate ((119 - msg.length % 64) % 64) 0
    ++ beBytes 8 (msg.length * 8)
  let blocks := toBlocks16 (bytesToWords padded)
  let h := blocks.foldl sha1Compress
    [1732584193, 4023233417, 2562383102, 271733878, 3285377520]
  (h.map (beBytes 4)).flatten

/-- HMAC with SHA-1 as the underlying hash (64-byte block size). -/
def hmacSha1 (key msg : List Nat) : List Nat :=
  let key := if key.length > 64 then sha1 key else key
  let key := key ++ List.replicate (64 - key.length) 0
  sha1 ((key.map (fun b => b ^^^ 92)) ++ sha1 ((key.map (fun b => b ^^^ 54)) ++ msg))

/-- Value of a standard-base64 alphabet byte, `none` for bytes outside
the alphabet. -/
def b64Index (c : Nat) : Option Nat :=
  if 65 ≤ c ∧ c ≤ 90 then some (c - 65)
  else if 97 ≤ c ∧ c ≤ 122 then some (c - 97 + 26)
  else if 48 ≤ c ∧ c ≤ 57 then some (c - 48 + 52)
  else if c = 43 then some 62
  else if c = 47 then some 63
  else none

/-- Decode four-byte base64 groups; padding bytes 61 may appear only in
the final group. -/
def b64Groups : List Nat → Option (List Nat)
  | [] => some []
  | c1 :: c2 :: c3 :: c4 :: rest =>
      match b64Index c1, b64Index c2 with
      | some a, some b =>
          if c3 = 61 then
            if c4 = 61 ∧ rest = [] then some [a * 4 + b / 16] else none
          else
            match b64Index c3 with
            | some c =>
                if c4 = 61 then
                  if rest = [] then some [a * 4 + b / 16, b % 16 * 16 + c / 4]
                  else none
                else
                  match b64Index c4 with
                  | some d =>
                      (b64Groups rest).map
                        (fun tail => (a * 4 + b / 16) :: (b % 16 * 16 + c / 4) ::
                          (c % 4 * 64 + d) :: tail)
                  | none => none
            | none => none
      | _, _ => none
  | _ => none

/-- Standard base64 decoding as Go's `base64.StdEncoding.DecodeString`:
carriage returns and newlines are skipped, padding is required. -/
def base64Decode (s : List Nat) : Option (List Nat) :=
  b64Groups (s.filter (fun c => !(c == 13) && !(c == 10)))

/-- Byte of the standard base64 alphabet at index `n < 64`. -/
def b64Char (n : Nat) : Nat :=
  if n < 26 then 65 + n
  else if n < 52 then 97 + (n - 26)
  else if n < 62 then 48 + (n - 52)
  else if n = 62 then 43 else 47

/-- Standard base64 encoding with padding. -/
def base64Encode : List Nat → List Nat
  | [] => []
  | [b1] => [b64Char (b1 / 4), b64Char (b1 % 4 * 16), 61, 61]
  | [b1, b2] => [b64Char (b1 / 4), b64Char (b1 % 4 * 16 + b2 / 16),
      b64Char (b2 % 16 * 4), 61]
  | b1 :: b2 :: b3 :: rest =>
      b64Char (b1 / 4) :: b64Char (b1 % 4 * 16 + b2 / 16) ::
        b64Char (b2 % 16 * 4 + b3 / 64) :: b64Char (b3 % 64) :: base64Encode rest

/-- Bytes that `url.QueryEscape` leaves unescaped. -/
def isUnreserved (c : Nat) : Bool :=
  (65 ≤ c && c ≤ 90) || (97 ≤ c && c ≤ 122) || (48 ≤ c && c ≤ 57) ||
    c == 45 || c == 95 || c == 46 || c == 126

/-- Upper-case hexadecimal digit byte for `n < 16`. -/
def hexUpper (n : Nat) : Nat := if n < 10 then 48 + n else 65 + (n - 10)

/-- Percent-encoding of a byte string as Go's `url.QueryEscape`: spaces
become plus signs, unreserved bytes pass through, all others become a
percent sign and two upper-case hex digits. -/
def queryEscape : List Nat → List Nat
  | [] => []
  | c :: rest =>
      (if isUnreserved c then [c]
       else if c = 32 then [43]
       else [37, hexUpper (c / 16), hexUpper (c % 16)]) ++ queryEscape rest

/-- The source's timestamp serialisation loop: fill `n` bytes from the
last position backwards with the low byte of the running value, shifting
arithmetically by 8 bits each step. -/
def tsBytes : Nat → Int → List Nat
  | 0, _ => []
  | n + 1, ts => tsBytes n (ts / 256) ++ [(ts % 256).toNat]

/-- Embedding of `generateConfirmationHashForTime`: decode the secret
from base64, clip the tag to 32 bytes, build the 8-byte timestamp prefix
followed by the tag bytes, HMAC-SHA1 it under the decoded secret, then
base64-encode and percent-encode the digest. -/
def generateConfirmationHashForTime (identitySecret tag : List Nat)
    (timestamp : Int) : Except String (List Nat) :=
  match base64Decode identitySecret with
  | none => Except.error "failed to decode identitySecret"
  | some decodedSecret =>
      let tag := if tag.length > 32 then tag.take 32 else tag
      let data := tsBytes 8 timestamp ++ (if tag = [] then [] else tag)
      let hashedData := hmacSha1 decodedSecret data
      Except.ok (queryEscape (base64Encode hashedData))

/-- Modelled from the spec: shared descriptive metadata for one
classID/instanceID pair (the source type lives outside the embedded
files; only the two key fields are consumed by the inventory code). -/
structure EconItemDesc where
  classID : Nat
  instanceID : Nat
  deriving DecidableEq, Repr

/-- One owned unit of a tradable asset, as built by the inventory page
decoder; `desc` is the optionally attached description. -/
structure InventoryItem where
  appID : Nat
  contextID : Nat
  assetID : Nat
  classID : Nat
  instanceID : Nat
  amount : Nat
  desc : Option EconItemDesc
  deriving DecidableEq, Repr

/-- Modelled from the spec: a filter is a predicate over a candidate
item (the source's `Filter` callback type lives outside the embedded
files). -/
abbrev Filter : Type := InventoryItem → Bool

/-- Raw asset entry of an inventory page response. -/
structure Asset where
  appID : Nat
  contextID : Nat
  assetID : Nat
  classID : Nat
  instanceID : Nat
  amount : Nat
  deriving DecidableEq, Repr

/-- Decoded JSON body of one inventory page response. -/
structure Response where
  assets : List Asset
  descriptions : List EconItemDesc
  success : Int
  hasMore : Int
  lastAssetID : String
  totalInventoryCount : Int
  errorMsg : String
  deriving DecidableEq, Repr

/-- Faults surfaced by the embedded operations.  Distinct constructors
model Go error values created at distinct sites. -/
inductive SteamError where
  /-- Transport-level failure of the HTTP round trip. -/
  | transport (msg : String)
  /-- Server-provided error text on a failed inventory page. -/
  | serverError (msg : String)
  /-- Number-parse failure: a non-digit byte or an empty numeral. -/
  | badDigit (num : String)
  /-- Number-parse failure: value exceeds the unsigned 64-bit range. -/
  | outOfRange (num : String)
  deriving DecidableEq, Repr

/-- Embedding of `strconv.ParseUint(s, 10, 64)` over the string's raw
characters: digits only, value below `2 ^ 64`. -/
def parseUintAux (num : String) : List Char → Nat → Except SteamError Nat
  | [], n => Except.ok n
  | c :: cs, n =>
      if 48 ≤ c.toNat ∧ c.toNat ≤ 57 then
        let n' := n * 10 + (c.toNat - 48)
        if n' ≥ 18446744073709551616 then Except.error (SteamError.outOfRange num)
        else parseUintAux num cs n'
      else Except.error (SteamError.badDigit num)

/-- Parse an unsigned 64-bit decimal number, rejecting the empty string. -/
def parseUint (s : String) : Except SteamError Nat :=
  if s = "" then Except.error (SteamError.badDigit s)
  else parseUintAux s s.toList 0

/-- Composite description-lookup key: the two numerals joined by an
underscore, as the source's Sprintf pattern builds it. -/
def descKey (classID instanceID : Nat) : String :=
  Nat.repr classID ++ "_" ++ Nat.repr instanceID

/-- Look a key up in an association list (Go map access). -/
def lookupKV : List (String × Nat) → String → Option Nat
  | [], _ => none
  | (k', v) :: rest, k => if k = k' then some v else lookupKV rest k

/-- Insert a key/value pair into an association list, replacing an
existing binding for the same key (Go map assignment). -/
def insertKV : List (String × Nat) → String → Nat → List (String × Nat)
  | [], k, v => [(k, v)]
  | (k', v') :: rest, k, v =>
      if k' = k then (k, v) :: rest else (k', v') :: insertKV rest k v

/-- Build the page's description map: iterate the descriptions with
their positions, mapping each composite key to the position. -/
def buildDescMapAux (i : Nat) : List EconItemDesc → List (String × Nat) → List (String × Nat)
  | [], m => m
  | d :: ds, m => buildDescMapAux (i + 1) ds (insertKV m (descKey d.classID d.instanceID) i)

/-- Description map of a page, keyed by the composite key, valued by the
position in the descriptions array. -/
def buildDescMap (descs : List EconItemDesc) : List (String × Nat) :=
  buildDescMapAux 0 descs []

/-- Construct the inventory item for one raw asset, attaching the
description found under the asset's composite key, if any. -/
def mkItem (descs : List EconItemDesc) (descMap : List (String × Nat))
    (a : Asset) : InventoryItem :=
  { appID := a.appID, contextID := a.contextID, assetID := a.assetID,
    classID := a.classID, instanceID := a.instanceID, amount := a.amount,
    desc :=
      match lookupKV descMap (descKey a.classID a.instanceID) with
      | some d => descs[d]?
      | none => none }

/-- The source's per-item filter loop: run the filters in order and stop
at the first one that rejects. -/
def applyFilters : List Filter → InventoryItem → Bool
  | [], _ => true
  | f :: fs, item => if f item then applyFilters fs item else false

/-- Process the page's raw assets in order, appending each accepted item
to the accumulated list. -/
def processAssets (descs : List EconItemDesc) (descMap : List (String × Nat))
    (filters : List Filter) : List Asset → List InventoryItem → List InventoryItem
  | [], items => items
  | a :: as, items =>
      let item := mkItem descs descMap a
      processAssets descs descMap filters as
        (if applyFilters filters item then items ++ [item] else items)

/-- Embedding of the body of `fetchInventory` after the page response
has been decoded: returns the has-more flag, the next cursor, the
updated item accumulator and the error, mirroring the source's return
values and its in-place item append. -/
def fetchInventory (filters : List Filter) (resp : Response)
    (items : List InventoryItem) : Bool × Nat × List InventoryItem × Option SteamError :=
  if resp.success = 0 then
    if resp.errorMsg.length ≠ 0 then (false, 0, items, some (SteamError.serverError resp.errorMsg))
    else (false, 0, items, none)
  else
    let descMap := buildDescMap resp.descriptions
    let items := processAssets resp.descriptions descMap filters resp.assets items
    if resp.hasMore ≠ 0 then
      match parseUint resp.lastAssetID with
      | Except.error e => (true, 0, items, some e)
      | Except.ok lastAssetID => (true, lastAssetID, items, none)
    else (false, 0, items, none)

/-- Query parameters of one inventory page request, as assembled before
the HTTP GET: the endpoint path values and the cursor/page-size pair
(`none` start means the parameter is omitted). -/
structure PageRequest where
  sid : Nat
  appID : Nat
  contextID : Nat
  startAssetid : Option Nat
  count : Nat
  deriving DecidableEq, Repr

/-- Request construction of `fetchInventory`: a non-zero start cursor is
sent with page size 75, otherwise the cursor is omitted and the page
size is 250. -/
def mkRequest (sid appID contextID startAssetID : Nat) : PageRequest :=
  if startAssetID ≠ 0 then ⟨sid, appID, contextID, some startAssetID, 75⟩
  else ⟨sid, appID, contextID, none, 250⟩

/-- Pagination loop of `GetFilterableInventory` over a script of page
responses (one response consumed per HTTP round trip; an exhausted
script models a transport failure).  Returns the trace of issued
requests together with the item slice and error returned to the caller. -/
def runLoop (sid appID contextID : Nat) (filters : List Filter) :
    List Response → Nat → List InventoryItem →
      List PageRequest × Option (List InventoryItem) × Option SteamError
  | [], startAssetID, _ =>
      ([mkRequest sid appID contextID startAssetID], none, some (SteamError.transport "Get"))
  | resp :: rest, startAssetID, items =>
      let req := mkRequest sid appID contextID startAssetID
      match fetchInventory filters resp items with
      | (_, _, _, some e) => ([req], none, some e)
      | (true, lastAssetID, items', none) =>
          let r := runLoop sid appID contextID filters rest lastAssetID items'
          (req :: r.1, r.2)
      | (false, _, items', none) => ([req], some items', none)

/-- Embedding of `GetFilterableInventory`: run the pagination loop from
cursor 0 with an empty accumulator and return the caller-visible pair. -/
def GetFilterableInventory (sid appID contextID : Nat) (script : List Response)
    (filters : List Filter) : Option (List InventoryItem) × Option SteamError :=
  (runLoop sid appID contextID filters script 0 []).2

/-- Embedding of `GetInventory`: delegate to `GetFilterableInventory`
with an empty filter list. -/
def GetInventory (sid appID contextID : Nat) (script : List Response) :
    Option (List InventoryItem) × Option SteamError :=
  GetFilterableInventory sid appID contextID script []

/-- Trace of page requests issued by one `GetFilterableInventory` call. -/
def requestTrace (sid appID contextID : Nat) (script : List Response)
    (filters : List Filter) : List PageRequest :=
  (runLoop sid appID contextID filters script 0 []).1

/-- Cursor value of a page response: its last-asset-id field parsed as
an unsigned decimal, defaulting to 0 when it does not parse. -/
def respLast (r : Response) : Nat :=
  match parseUint r.lastAssetID with
  | Except.ok n => n
  | Except.error _ => 0

/-- An HTTP response as consumed by the confirmation operations: a
status code and the outcome of reading and JSON-decoding the body. -/
structure HttpResp (α : Type) where
  status : Nat
  body : Except String α

/-- Faults surfaced by the confirmation operations; the constructors
mirror the distinct wrapping sites of the source. -/
inductive ConfError where
  /-- Transport-level failure executing the request. -/
  | transport (msg : String)
  /-- Failure reading or JSON-decoding a response body. -/
  | bodyError (msg : String)
  /-- Non-200 status on the confirmation-list request. -/
  | unexpectedStatus (code : Nat)
  /-- Non-200 status reported by the time API. -/
  | timeStatus (code : Nat)
  /-- Wrapper for a time-oracle failure. -/
  | failedGetSteamTime (e : ConfError)
  /-- Wrapper for a hasher failure. -/
  | failedGenerateHash (msg : String)
  deriving DecidableEq, Repr

/-- Wrapper object of the time API's JSON body. -/
structure SteamTimeInner where
  serverTime : Int
  deriving DecidableEq, Repr

/-- Decoded JSON body of the time API. -/
structure SteamTimeResponse where
  steamTime : SteamTimeInner
  deriving DecidableEq, Repr

/-- Modelled from the spec: decoded confirmation-list body (the source
type lives outside the embedded files; its content is opaque to the
embedded control flow). -/
structure ConfirmationResponse where
  success : Bool
  deriving DecidableEq, Repr

/-- Modelled from the spec: decoded decide-operation body (the source
type lives outside the embedded files). -/
structure ConfirmationAcceptResponse where
  success : Bool
  deriving DecidableEq, Repr

/-- Modelled from the spec: a pending confirmation, identified by an
opaque id and a one-time nonce, both echoed back on a decision. -/
structure Confirmation where
  id : String
  nonce : String
  deriving DecidableEq, Repr

/-- The constant listing tag, the bytes of the string used both as the
hash tag and as the query tag of the list endpoint. -/
def confTag : List Nat := [99, 111, 110, 102]

/-- Bytes of the string compared against the decide operation's tag to
pick the remote operation name. -/
def acceptTag : List Nat := [97, 99, 99, 101, 112, 116]

/-- Embedding of `getSteamTime`: one POST to the time API, failing on
transport error, non-200 status or body-decode error, otherwise
returning the nested server-time field. -/
def getSteamTime (timeResp : Except String (HttpResp SteamTimeResponse)) :
    Except ConfError Int :=
  match timeResp with
  | Except.error msg => Except.error (ConfError.transport msg)
  | Except.ok resp =>
      if resp.status ≠ 200 then Except.error (ConfError.timeStatus resp.status)
      else
        match resp.body with
        | Except.error msg => Except.error (ConfError.bodyError msg)
        | Except.ok result => Except.ok result.steamTime.serverTime

/-- Query parameters of the confirmation-list request. -/
structure ConfListRequest where
  p : String
  a : String
  k : List Nat
  t : Int
  m : String
  tag : List Nat
  deriving DecidableEq, Repr

/-- Query parameters of the decide request. -/
structure ConfDecideRequest where
  op : String
  p : String
  a : String
  k : List Nat
  t : Int
  tag : List Nat
  cid : String
  ck : String
  deriving DecidableEq, Repr

/-- Embedding of `FetchConfirmations`: fetch the server time, derive the
listing token, issue the list request and decode its body; the first
component is the request issued, when one is. -/
def FetchConfirmations (identitySecret : List Nat) (deviceID steamID : String)
    (timeResp : Except String (HttpResp SteamTimeResponse))
    (respond : ConfListRequest → Except String (HttpResp ConfirmationResponse)) :
    Option ConfListRequest × Except ConfError ConfirmationResponse :=
  match getSteamTime timeResp with
  | Except.error e => (none, Except.error (ConfError.failedGetSteamTime e))
  | Except.ok timestamp =>
      match generateConfirmationHashForTime identitySecret confTag timestamp with
      | Except.error msg => (none, Except.error (ConfError.failedGenerateHash msg))
      | Except.ok hash =>
          let req : ConfListRequest :=
            ⟨deviceID, steamID, hash, timestamp, "react", confTag⟩
          match respond req with
          | Except.error msg => (some req, Except.error (ConfError.transport msg))
          | Except.ok resp =>
              if resp.status ≠ 200 then
                (some req, Except.error (ConfError.unexpectedStatus resp.status))
              else
                match resp.body with
                | Except.error msg => (some req, Except.error (ConfError.bodyError msg))
                | Except.ok confirmations => (some req, Except.ok confirmations)

/-- Embedding of `SendConfirmationAjax`: map the tag to the remote
operation name, fetch the server time, derive the token with the
action's own tag, issue the decide request and decode its body; the
first component is the request issued, when one is. -/
def SendConfirmationAjax (confm : Confirmation) (tag is : List Nat)
    (deviceID steamID : String)
    (timeResp : Except String (HttpResp SteamTimeResponse))
    (respond : ConfDecideRequest → Except String (HttpResp ConfirmationAcceptResponse)) :
    Option ConfDecideRequest × Except ConfError ConfirmationAcceptResponse :=
  let op := if tag = acceptTag then "allow" else "cancel"
  match getSteamTime timeResp with
  | Except.error e => (none, Except.error (ConfError.failedGetSteamTime e))
  | Except.ok timestamp =>
      match generateConfirmationHashForTime is tag timestamp with
      | Except.error msg => (none, Except.error (ConfError.failedGenerateHash msg))
      | Except.ok hash =>
          let req : ConfDecideRequest :=
            ⟨op, deviceID, steamID, hash, timestamp, tag, confm.id, confm.nonce⟩
          match respond req with
          | Except.error msg => (some req, Except.error (ConfError.transport msg))
          | Except.ok resp =>
              match resp.body with
              | Except.error msg => (some req, Except.error (ConfError.bodyError msg))
              | Except.ok r => (some req, Except.ok r)

/-- Big-endian serialisation of an unsigned 64-bit value: eight bytes,
the most significant at offset 0. -/
def beUInt64 (v : Nat) : List Nat :=
  [v / 2 ^ 56 % 256, v / 2 ^ 48 % 256, v / 2 ^ 40 % 256, v / 2 ^ 32 % 256,
   v / 2 ^ 24 % 256, v / 2 ^ 16 % 256, v / 2 ^ 8 % 256, v % 256]

/-- The source's byte-filling loop agrees with the big-endian
serialisation of the timestamp reduced to the unsigned 64-bit range. -/
theorem tsBytes_spec (ts : Int) :
    tsBytes 8 ts = beUInt64 ((ts % 18446744073709551616).toNat) := by
  show [(ts / 256 / 256 / 256 / 256 / 256 / 256 / 256 % 256).toNat,
      (ts / 256 / 256 / 256 / 256 / 256 / 256 % 256).toNat,
      (ts / 256 / 256 / 256 / 256 / 256 % 256).toNat,
      (ts / 256 / 256 / 256 / 256 % 256).toNat,
      (ts / 256 / 256 / 256 % 256).toNat,
      (ts / 256 / 256 % 256).toNat,
      (ts / 256 % 256).toNat,
      (ts % 256).toNat] = beUInt64 ((ts % 18446744073709551616).toNat)
  simp only [beUInt64, List.cons.injEq, and_true]
  omega

/-- Claim C1: for every secret that decodes from standard base64, every
tag and every timestamp, the confirmation hasher returns the
percent-encoded standard-base64 encoding of HMAC-SHA1, keyed by the
decoded secret, over the big-endian 64-bit timestamp followed by the tag
truncated to 32 bytes; the only possible error is a base64 decode
failure of the secret. -/
theorem generateConfirmationHash_spec (secret tag : List Nat) (ts : Int) :
    (∀ key, base64Decode secret = some key →
       generateConfirmationHashForTime secret tag ts =
         Except.ok (queryEscape (base64Encode (hmacSha1 key
           (beUInt64 ((ts % 18446744073709551616).toNat) ++ tag.take 32))))) ∧
    (∀ msg, generateConfirmationHashForTime secret tag ts = Except.error msg →
       base64Decode secret = none ∧ msg = "failed to decode identitySecret") := by
  constructor
  · intro key hk
    simp only [generateConfirmationHashForTime, hk]
    have htag : (if tag.length > 32 then tag.take 32 else tag) = tag.take 32 := by
      split
      · rfl
      · exact (List.take_of_length_le (by omega)).symm
    rw [htag]
    have hnil : (if tag.take 32 = [] then [] else tag.take 32) = tag.take 32 := by
      split <;> simp_all
    rw [hnil, tsBytes_spec]
  · intro msg hmsg
    cases hd : base64Decode secret with
    | none =>
        simp only [generateConfirmationHashForTime, hd] at hmsg
        exact ⟨rfl, (Except.error.injEq _ _).mp hmsg.symm⟩
    | some key =>
        simp only [generateConfirmationHashForTime, hd] at hmsg
        exact Except.noConfusion hmsg

/-- Witness for claim C1 at a concrete secret. -/
theorem generateConfirmationHash_spec_witness :
    base64Decode [65, 65, 61, 61] = some [0] ∧
    ∃ out, generateConfirmationHashForTime [65, 65, 61, 61] [99, 111, 110, 102]
        1234567890 = Except.ok out :=
  ⟨rfl, _, (generateConfirmationHash_spec [65, 65, 61, 61] [99, 111, 110, 102]
      1234567890).1 [0] rfl⟩

/-- Claim C3: a page response with success 0 and an empty error field is
an empty inventory (no items added, no further pages, no fault), while a
non-empty error field becomes a fault carrying exactly the
server-provided text. -/
theorem fetchInventory_success_zero (filters : List Filter) (resp : Response)
    (items : List InventoryItem) (h : resp.success = 0) :
    (resp.errorMsg = "" → fetchInventory filters resp items = (false, 0, items, none)) ∧
    (resp.errorMsg ≠ "" → fetchInventory filters resp items =
       (false, 0, items, some (SteamError.serverError resp.errorMsg))) := by
  constructor
  · intro he
    simp [fetchInventory, h, he]
  · intro he
    have hlen : resp.errorMsg.length ≠ 0 := fun hl =>
      he (String.ext (List.length_eq_zero.mp hl))
    simp [fetchInventory, h, hlen]

/-- Witness for claim C3 at a concrete failed page. -/
theorem fetchInventory_success_zero_witness :
    (Response.mk [] [] 0 0 "" 0 "oops").success = 0 ∧
    fetchInventory [] (Response.mk [] [] 0 0 "" 0 "oops") [] =
      (false, 0, [], some (SteamError.serverError "oops")) :=
  ⟨rfl, (fetchInventory_success_zero [] (Response.mk [] [] 0 0 "" 0 "oops") []
      rfl).2 (by decide)⟩

/-- Claim C5: filters run in the supplied order, the first rejection
short-circuits the rest (the tail of the filter list after the rejecting
filter cannot influence the outcome) and excludes the item, and an empty
filter list always includes the item. -/
theorem applyFilters_short_circuit :
    (∀ (item : InventoryItem) (fs₁ fs₂ fs₂' : List Filter) (f : Filter),
        (∀ g ∈ fs₁, g item = true) → f item = false →
        applyFilters (fs₁ ++ f :: fs₂) item = false ∧
        applyFilters (fs₁ ++ f :: fs₂) item = applyFilters (fs₁ ++ f :: fs₂') item) ∧
    (∀ item, applyFilters [] item = true) ∧
    (∀ descs descMap filters a as items,
        applyFilters filters (mkItem descs descMap a) = false →
        processAssets descs descMap filters (a :: as) items =
          processAssets descs descMap filters as items) := by
  refine ⟨?_, fun _ => rfl, ?_⟩
  · intro item fs₁ fs₂ fs₂' f hacc hrej
    induction fs₁ with
    | nil => simp [applyFilters, hrej]
    | cons g gs ih =>
        have hg : g item = true := hacc g (List.mem_cons_self _ _)
        have ih' := ih fun g' hg' => hacc g' (List.mem_cons_of_mem _ hg')
        constructor
        · simpa [applyFilters, hg] using ih'.1
        · simpa [applyFilters, hg] using ih'.2
  · intro descs descMap filters a as items h
    simp [processAssets, h]

/-- Witness for claim C5 at concrete filters and an item. -/
theorem applyFilters_short_circuit_witness :
    ((fun _ => true) : Filter) (InventoryItem.mk 0 0 0 0 0 0 none) = true ∧
    ((fun _ => false) : Filter) (InventoryItem.mk 0 0 0 0 0 0 none) = false ∧
    applyFilters [fun _ => true, fun _ => false, fun _ => true]
        (InventoryItem.mk 0 0 0 0 0 0 none) =
      applyFilters [fun _ => true, fun _ => false, fun _ => true]
        (InventoryItem.mk 0 0 0 0 0 0 none) ∧
    applyFilters ([fun _ => true] ++ (fun _ => false) :: [fun _ => true])
        (InventoryItem.mk 0 0 0 0 0 0 none) = false :=
  ⟨rfl, rfl, rfl,
    (applyFilters_short_circuit.1 (InventoryItem.mk 0 0 0 0 0 0 none)
      [fun _ => true] [fun _ => true] [] (fun _ => false)
      (fun g hg => by
        rw [List.mem_singleton.mp hg]) rfl).1⟩

/-- Claim C9: a tag longer than 32 bytes yields exactly the token of its
32-byte prefix; long tags are clipped, never rejected. -/
theorem generateConfirmationHash_truncates (secret tag : List Nat) (ts : Int)
    (h : tag.length > 32) :
    generateConfirmationHashForTime secret (tag.take 32) ts =
      generateConfirmationHashForTime secret tag ts := by
  simp only [generateConfirmationHashForTime]
  cases hd : base64Decode secret with
  | none => rfl
  | some key =>
      have h32 : (tag.take 32).length = 32 := by
        simp [List.length_take]
        omega
      have hL : (if (tag.take 32).length > 32 then (tag.take 32).take 32
          else tag.take 32) = tag.take 32 := by
        rw [h32]
        simp
      have hR : (if tag.length > 32 then tag.take 32 else tag) = tag.take 32 := by
        simp [h]
      rw [hL, hR]

/-- Witness for claim C9 at a concrete 33-byte tag. -/
theorem generateConfirmationHash_truncates_witness :
    (List.replicate 33 97).length > 32 ∧
    generateConfirmationHashForTime [65, 65, 61, 61] ((List.replicate 33 97).take 32) 7 =
      generateConfirmationHashForTime [65, 65, 61, 61] (List.replicate 33 97) 7 :=
  ⟨by decide, generateConfirmationHash_truncates [65, 65, 61, 61]
      (List.replicate 33 97) 7 (by decide)⟩

/-- Position of the last description with key `k`, mirroring the
overwrite order in which the description map is built. -/
def lastIdxOf (k : String) : List EconItemDesc → Option Nat
  | [] => none
  | d :: ds =>
      match lastIdxOf k ds with
      | some j => some (j + 1)
      | none => if descKey d.classID d.instanceID = k then some 0 else none

/-- Looking a key up after an overwriting insert sees the new binding
for that key and is otherwise unchanged. -/
theorem lookupKV_insertKV (m : List (String × Nat)) (k k' : String) (v : Nat) :
    lookupKV (insertKV m k' v) k = if k = k' then some v else lookupKV m k := by
  induction m with
  | nil => simp [insertKV, lookupKV]
  | cons p rest ih =>
      obtain ⟨k₀, v₀⟩ := p
      by_cases h : k₀ = k'
      · subst h
        by_cases h2 : k = k₀ <;> simp [insertKV, lookupKV, h2]
      · by_cases h2 : k = k₀
        · have hkk' : ¬ k = k' := fun hc => h (h2.symm.trans hc)
          simp [insertKV, lookupKV, h, h2, hkk']
        · simp [insertKV, lookupKV, h, h2, ih]

/-- Looking up the built description map finds the position of the last
description carrying the key. -/
theorem lookupKV_buildDescMapAux (k : String) :
    ∀ (ds : List EconItemDesc) (i : Nat) (m : List (String × Nat)),
      lookupKV (buildDescMapAux i ds m) k =
        match lastIdxOf k ds with
        | some j => some (i + j)
        | none => lookupKV m k := by
  intro ds
  induction ds with
  | nil => intro i m; rfl
  | cons d rest ih =>
      intro i m
      simp only [buildDescMapAux, lastIdxOf]
      rw [ih]
      cases h : lastIdxOf k rest with
      | some j => simp [Nat.add_assoc, Nat.add_comm 1 j]
      | none =>
          rw [lookupKV_insertKV]
          by_cases hk : descKey d.classID d.instanceID = k
          · simp [hk]
          · have : ¬ k = descKey d.classID d.instanceID := fun hc => hk hc.symm
            simp [hk, this]

/-- A found last index points at a description carrying the key. -/
theorem lastIdxOf_sound (k : String) :
    ∀ (ds : List EconItemDesc) (j : Nat), lastIdxOf k ds = some j →
      ∃ d, ds[j]? = some d ∧ descKey d.classID d.instanceID = k := by
  intro ds
  induction ds with
  | nil => intro j h; exact Option.noConfusion h
  | cons d rest ih =>
      intro j h
      simp only [lastIdxOf] at h
      cases hr : lastIdxOf k rest with
      | some j' =>
          rw [hr] at h
          obtain rfl : j' + 1 = j := by injection h
          obtain ⟨d', hd', hk'⟩ := ih j' hr
          exact ⟨d', by simpa using hd', hk'⟩
      | none =>
          rw [hr] at h
          by_cases hd : descKey d.classID d.instanceID = k
          · rw [if_pos hd] at h
            obtain rfl : (0 : Nat) = j := by injection h
            exact ⟨d, by simp, hd⟩
          · rw [if_neg hd] at h
            exact Option.noConfusion h

/-- When no description carries the key, no last index exists. -/
theorem lastIdxOf_none (k : String) :
    ∀ ds : List EconItemDesc,
      (∀ d ∈ ds, descKey d.classID d.instanceID ≠ k) → lastIdxOf k ds = none := by
  intro ds
  induction ds with
  | nil => intro _; rfl
  | cons d rest ih =>
      intro h
      simp only [lastIdxOf]
      rw [ih fun d' hd' => h d' (List.mem_cons_of_mem _ hd')]
      exact if_neg (h d (List.mem_cons_self _ _))

/-- When exactly one description carries the key, the last index points
at it. -/
theorem lastIdxOf_unique (k : String) :
    ∀ (ds : List EconItemDesc) (d : EconItemDesc), d ∈ ds →
      descKey d.classID d.instanceID = k →
      (∀ d' ∈ ds, descKey d'.classID d'.instanceID = k → d' = d) →
      ∃ j, lastIdxOf k ds = some j ∧ ds[j]? = some d := by
  intro ds
  induction ds with
  | nil => intro d hd; exact absurd hd (List.not_mem_nil d)
  | cons d₀ rest ih =>
      intro d hd hk huniq
      rcases List.mem_cons.mp hd with rfl | hmem
      · cases hr : lastIdxOf k rest with
        | some j =>
            obtain ⟨d', hd', hk'⟩ := lastIdxOf_sound k rest j hr
            obtain ⟨hlt, heq⟩ := List.getElem?_eq_some.mp hd'
            have hd'mem : d' ∈ rest := heq ▸ List.getElem_mem hlt
            have : d' = d := huniq d' (List.mem_cons_of_mem _ hd'mem) hk'
            subst this
            exact ⟨j + 1, by simp [lastIdxOf, hr], by simpa using hd'⟩
        | none => exact ⟨0, by simp [lastIdxOf, hr, hk], by simp⟩
      · obtain ⟨j, hj, hjd⟩ :=
          ih d hmem hk fun d' hd' hk' => huniq d' (List.mem_cons_of_mem _ hd') hk'
        exact ⟨j + 1, by simp [lastIdxOf, hj], by simpa using hjd⟩

/-- Claim C4: an item whose class/instance pair matches a description of
its page (via the delimited composite key) gets that description
attached; an item with no match gets none attached, and a page whose
lookups miss still completes without fault. -/
theorem mergeDescriptions (descs : List EconItemDesc) (a : Asset) :
    (∀ d, d ∈ descs →
        descKey d.classID d.instanceID = descKey a.classID a.instanceID →
        (∀ d' ∈ descs,
          descKey d'.classID d'.instanceID = descKey a.classID a.instanceID → d' = d) →
        (mkItem descs (buildDescMap descs) a).desc = some d) ∧
    ((∀ d ∈ descs, descKey d.classID d.instanceID ≠ descKey a.classID a.instanceID) →
        (mkItem descs (buildDescMap descs) a).desc = none) ∧
    (∀ filters resp items, resp.success ≠ 0 → resp.hasMore = 0 →
        fetchInventory filters resp items =
          (false, 0, processAssets resp.descriptions (buildDescMap resp.descriptions)
            filters resp.assets items, none)) := by
  refine ⟨?_, ?_, ?_⟩
  · intro d hmem hkey huniq
    obtain ⟨j, hj, hjd⟩ := lastIdxOf_unique (descKey a.classID a.instanceID) descs d
      hmem hkey huniq
    simp only [mkItem, buildDescMap]
    rw [lookupKV_buildDescMapAux, hj]
    simpa using hjd
  · intro hnone
    simp only [mkItem, buildDescMap]
    rw [lookupKV_buildDescMapAux, lastIdxOf_none _ _ hnone]
    rfl
  · intro filters resp items hs hm
    simp [fetchInventory, hs, hm]

/-- Witness for claim C4: one matching and one non-matching asset on a
concrete page. -/
theorem mergeDescriptions_witness :
    (EconItemDesc.mk 5 7) ∈ [EconItemDesc.mk 5 7] ∧
    (mkItem [EconItemDesc.mk 5 7] (buildDescMap [EconItemDesc.mk 5 7])
        (Asset.mk 730 2 11 5 7 1)).desc = some (EconItemDesc.mk 5 7) ∧
    (mkItem [EconItemDesc.mk 5 7] (buildDescMap [EconItemDesc.mk 5 7])
        (Asset.mk 730 2 12 9 1 1)).desc = none :=
  ⟨List.mem_singleton.mpr rfl,
    (mergeDescriptions [EconItemDesc.mk 5 7] (Asset.mk 730 2 11 5 7 1)).1
      (EconItemDesc.mk 5 7) (by decide) (by decide) (by decide),
    (mergeDescriptions [EconItemDesc.mk 5 7] (Asset.mk 730 2 12 9 1 1)).2.1 (by decide)⟩

/-- A page fetch that reports more pages and no error has successfully
parsed the response's cursor. -/
theorem fetchInventory_more_ok (filters : List Filter) (resp : Response)
    (items its : List InventoryItem) (last : Nat)
    (h : fetchInventory filters resp items = (true, last, its, none)) :
    parseUint resp.lastAssetID = Except.ok last := by
  by_cases hs : resp.success = 0
  · by_cases he : resp.errorMsg.length ≠ 0 <;> simp [fetchInventory, hs, he] at h
  · by_cases hm : resp.hasMore ≠ 0
    · cases hp : parseUint resp.lastAssetID with
      | error e => simp [fetchInventory, hs, hm, hp] at h
      | ok n =>
          simp [fetchInventory, hs, hm, hp, Prod.ext_iff] at h
          rw [h.1]
    · simp [fetchInventory, hs, hm] at h

/-- The caller-visible outcome of the pagination loop is either a fault
with no items or an item list with no fault. -/
theorem runLoop_shape (sid appID contextID : Nat) (filters : List Filter) :
    ∀ (script : List Response) (start : Nat) (items : List InventoryItem),
      (∃ e, (runLoop sid appID contextID filters script start items).2 = (none, some e)) ∨
      (∃ its, (runLoop sid appID contextID filters script start items).2 = (some its, none)) := by
  intro script
  induction script with
  | nil => intro start items; exact Or.inl ⟨_, rfl⟩
  | cons resp rest ih =>
      intro start items
      rcases hfi : fetchInventory filters resp items with ⟨hm, last, its, err⟩
      cases err with
      | some e => exact Or.inl ⟨e, by simp [runLoop, hfi]⟩
      | none =>
          cases hm with
          | true => simpa [runLoop, hfi] using ih last its
          | false => exact Or.inr ⟨its, by simp [runLoop, hfi]⟩

/-- Claim C6: a page that signals more pages with an unparsable cursor
surfaces the parse fault, and a failed pagination loop returns no items
at all together with its fault. -/
theorem unusableCursor_and_no_partials :
    (∀ (filters : List Filter) (resp : Response) (items : List InventoryItem) e,
        resp.success ≠ 0 → resp.hasMore ≠ 0 →
        parseUint resp.lastAssetID = Except.error e →
        fetchInventory filters resp items =
          (true, 0, processAssets resp.descriptions (buildDescMap resp.descriptions)
            filters resp.assets items, some e)) ∧
    (∀ (sid appID contextID : Nat) (script : List Response) (filters : List Filter) e,
        (GetFilterableInventory sid appID contextID script filters).2 = some e →
        (GetFilterableInventory sid appID contextID script filters).1 = none) := by
  constructor
  · intro filters resp items e hs hm hp
    simp [fetchInventory, hs, hm, hp]
  · intro sid appID contextID script filters e he
    rcases runLoop_shape sid appID contextID filters script 0 [] with ⟨e', h⟩ | ⟨its, h⟩
    · simp only [GetFilterableInventory, h]
    · simp only [GetFilterableInventory, h] at he
      exact Option.noConfusion he

/-- Witness for claim C6 at a page promising more data with a
non-numeric cursor. -/
theorem unusableCursor_and_no_partials_witness :
    parseUint "abc" = Except.error (SteamError.badDigit "abc") ∧
    fetchInventory [] (Response.mk [] [] 1 1 "abc" 0 "") [] =
      (true, 0, [], some (SteamError.badDigit "abc")) ∧
    (GetFilterableInventory 1 730 2 [Response.mk [] [] 1 1 "abc" 0 ""] []).1 = none :=
  ⟨rfl,
    (unusableCursor_and_no_partials.1 [] (Response.mk [] [] 1 1 "abc" 0 "") []
      (SteamError.badDigit "abc") (by decide) (by decide) rfl),
    (unusableCursor_and_no_partials.2 1 730 2 [Response.mk [] [] 1 1 "abc" 0 ""] []
      (SteamError.badDigit "abc") (by decide))⟩

/-- A request is never built with an explicit zero cursor. -/
theorem mkRequest_start_ne_zero (sid appID contextID st : Nat) :
    (mkRequest sid appID contextID st).startAssetid ≠ some 0 := by
  unfold mkRequest
  split
  · rename_i hst
    intro h
    exact hst (Option.some.injEq _ _ ▸ h)
  · intro h
    exact Option.noConfusion h

/-- The first request of any loop run is built from its start cursor. -/
theorem runLoop_trace_head (sid appID contextID : Nat) (filters : List Filter) :
    ∀ (script : List Response) (start : Nat) (items : List InventoryItem),
      ((runLoop sid appID contextID filters script start items).1)[0]? =
        some (mkRequest sid appID contextID start) := by
  intro script start items
  cases script with
  | nil => rfl
  | cons resp rest =>
      rcases hfi : fetchInventory filters resp items with ⟨hm, last, its, err⟩
      cases err with
      | some e => simp [runLoop, hfi]
      | none => cases hm <;> simp [runLoop, hfi]

/-- Every follow-up request of a loop run is built from the parsed
cursor of the response one position earlier in the script. -/
theorem runLoop_trace_succ (sid appID contextID : Nat) (filters : List Filter) :
    ∀ (script : List Response) (start : Nat) (items : List InventoryItem)
      (i : Nat) (r : Response),
      script[i]? = some r →
      i + 1 < (runLoop sid appID contextID filters script start items).1.length →
      (runLoop sid appID contextID filters script start items).1[i + 1]? =
        some (mkRequest sid appID contextID (respLast r)) := by
  intro script
  induction script with
  | nil =>
      intro start items i r h
      exact absurd h (by simp)
  | cons resp rest ih =>
      intro start items i r hsr hlen
      rcases hfi : fetchInventory filters resp items with ⟨hm, last, its, err⟩
      cases err with
      | some e => simp [runLoop, hfi] at hlen
      | none =>
          cases hm with
          | false => simp [runLoop, hfi] at hlen
          | true =>
              have hlast : parseUint resp.lastAssetID = Except.ok last :=
                fetchInventory_more_ok filters resp items its last hfi
              cases i with
              | zero =>
                  have hr : resp = r := by simpa using hsr
                  subst hr
                  have hrl : respLast resp = last := by
                    simp [respLast, hlast]
                  simp [runLoop, hfi, hrl, runLoop_trace_head]
              | succ j =>
                  have hsr' : rest[j]? = some r := by simpa using hsr
                  have hlen' : j + 1 < (runLoop sid appID contextID filters rest
                      last its).1.length := by
                    simp [runLoop, hfi] at hlen
                    omega
                  have := ih last its j r hsr' hlen'
                  simpa [runLoop, hfi] using this

/-- Every request in the trace is built by the request constructor. -/
theorem runLoop_trace_mem (sid appID contextID : Nat) (filters : List Filter) :
    ∀ (script : List Response) (start : Nat) (items : List InventoryItem)
      (req : PageRequest),
      req ∈ (runLoop sid appID contextID filters script start items).1 →
      ∃ st, req = mkRequest sid appID contextID st := by
  intro script
  induction script with
  | nil =>
      intro start items req h
      exact ⟨start, by simpa [runLoop] using h⟩
  | cons resp rest ih =>
      intro start items req h
      rcases hfi : fetchInventory filters resp items with ⟨hm, last, its, err⟩
      cases err with
      | some e =>
          exact ⟨start, by simpa [runLoop, hfi] using h⟩
      | none =>
          cases hm with
          | false => exact ⟨start, by simpa [runLoop, hfi] using h⟩
          | true =>
              simp only [runLoop, hfi] at h
              rcases List.mem_cons.mp h with rfl | hmem
              · exact ⟨start, rfl⟩
              · exact ih last its req hmem

/-- The pagination request discipline exactly as claimed: the first
request omits the cursor with page size 250, every follow-up carries the
previous response's parsed cursor with page size 75, and no follow-up
carries cursor 0. -/
def PaginationClaim : Prop :=
  ∀ (sid appID contextID : Nat) (script : List Response) (filters : List Filter),
    (requestTrace sid appID contextID script filters)[0]? =
      some (PageRequest.mk sid appID contextID none 250) ∧
    (∀ (i : Nat) (r : Response),
        i + 1 < (requestTrace sid appID contextID script filters).length →
        script[i]? = some r →
        (requestTrace sid appID contextID script filters)[i + 1]? =
          some (PageRequest.mk sid appID contextID (some (respLast r)) 75)) ∧
    (∀ (i : Nat) (req : PageRequest),
        (requestTrace sid appID contextID script filters)[i]? = some req →
        req.startAssetid ≠ some 0)

/-- Counterexample to claim C2 as stated: when a page signals more data
with cursor text `"0"`, the follow-up request does not carry the
previous cursor with page size 75 — the loop restarts with an omitted
cursor and page size 250. -/
theorem paginationClaim_false : ¬ PaginationClaim := by
  intro h
  have h2 := (h 1 730 2 [Response.mk [] [] 1 1 "0" 0 "",
      Response.mk [] [] 1 0 "" 0 ""] []).2.1 0
      (Response.mk [] [] 1 1 "0" 0 "") (by decide) (by decide)
  revert h2
  decide

/-- Claim C2 (amended): the first request omits the cursor with page
size 250; a follow-up request carries the previous response's parsed
cursor with page size 75 when that cursor is non-zero, and restarts with
an omitted cursor and page size 250 when that cursor is zero; no
follow-up request ever carries an explicit cursor 0. -/
theorem pagination_discipline (sid appID contextID : Nat) (script : List Response)
    (filters : List Filter) :
    (requestTrace sid appID contextID script filters)[0]? =
      some (PageRequest.mk sid appID contextID none 250) ∧
    (∀ (i : Nat) (r : Response),
        i + 1 < (requestTrace sid appID contextID script filters).length →
        script[i]? = some r →
        (requestTrace sid appID contextID script filters)[i + 1]? =
          some (if respLast r ≠ 0
            then PageRequest.mk sid appID contextID (some (respLast r)) 75
            else PageRequest.mk sid appID contextID none 250)) ∧
    (∀ (i : Nat) (req : PageRequest),
        (requestTrace sid appID contextID script filters)[i]? = some req →
        req.startAssetid ≠ some 0) := by
  refine ⟨?_, ?_, ?_⟩
  · simpa [mkRequest] using runLoop_trace_head sid appID contextID filters script 0 []
  · intro i r hlen hsr
    have := runLoop_trace_succ sid appID contextID filters script 0 [] i r hsr hlen
    simpa [mkRequest] using this
  · intro i req hq
    obtain ⟨hlt, heq⟩ := List.getElem?_eq_some.mp hq
    have hmem : req ∈ requestTrace sid appID contextID script filters :=
      heq ▸ List.getElem_mem hlt
    obtain ⟨st, rfl⟩ := runLoop_trace_mem sid appID contextID filters script 0 [] req hmem
    exact mkRequest_start_ne_zero sid appID contextID st

/-- Witness for the amended claim C2 at a concrete two-page script. -/
theorem pagination_discipline_witness :
    ([Response.mk [] [] 1 1 "5" 0 "", Response.mk [] [] 1 0 "" 0 ""] :
        List Response)[0]? = some (Response.mk [] [] 1 1 "5" 0 "") ∧
    1 < (requestTrace 1 730 2 [Response.mk [] [] 1 1 "5" 0 "",
        Response.mk [] [] 1 0 "" 0 ""] []).length ∧
    (requestTrace 1 730 2 [Response.mk [] [] 1 1 "5" 0 "",
        Response.mk [] [] 1 0 "" 0 ""] [])[1]? =
      some (if respLast (Response.mk [] [] 1 1 "5" 0 "") ≠ 0
        then PageRequest.mk 1 730 2 (some (respLast (Response.mk [] [] 1 1 "5" 0 ""))) 75
        else PageRequest.mk 1 730 2 none 250) :=
  ⟨rfl, by decide,
    (pagination_discipline 1 730 2 [Response.mk [] [] 1 1 "5" 0 "",
        Response.mk [] [] 1 0 "" 0 ""] []).2.1 0
      (Response.mk [] [] 1 1 "5" 0 "") (by decide) rfl⟩

/-- The status-fault discipline exactly as claimed for both
confirmation operations: once the HTTP round trip delivers a response
whose status is not 200, the operation reports a fault that is not a
transport fault. -/
def StatusFaultClaim : Prop :=
  (∀ (secret : List Nat) (dev sid : String)
      (timeR : Except String (HttpResp SteamTimeResponse))
      (respond : ConfListRequest → Except String (HttpResp ConfirmationResponse))
      (req : ConfListRequest) (resp : HttpResp ConfirmationResponse),
      (FetchConfirmations secret dev sid timeR respond).1 = some req →
      respond req = Except.ok resp → resp.status ≠ 200 →
      ∃ e, (FetchConfirmations secret dev sid timeR respond).2 = Except.error e ∧
        ∀ m, e ≠ ConfError.transport m) ∧
  (∀ (confm : Confirmation) (tag is : List Nat) (dev sid : String)
      (timeR : Except String (HttpResp SteamTimeResponse))
      (respond : ConfDecideRequest → Except String (HttpResp ConfirmationAcceptResponse))
      (req : ConfDecideRequest) (resp : HttpResp ConfirmationAcceptResponse),
      (SendConfirmationAjax confm tag is dev sid timeR respond).1 = some req →
      respond req = Except.ok resp → resp.status ≠ 200 →
      ∃ e, (SendConfirmationAjax confm tag is dev sid timeR respond).2 = Except.error e ∧
        ∀ m, e ≠ ConfError.transport m)

/-- Counterexample to claim C7 as stated: the decide operation performs
no status check, so a status-500 response with a decodable body yields a
successful result, not a fault. -/
theorem statusFaultClaim_false : ¬ StatusFaultClaim := by
  intro h
  obtain ⟨req, hreq⟩ : ∃ req, (SendConfirmationAjax (Confirmation.mk "1" "n") acceptTag
      [65, 65, 61, 61] "d" "s"
      (Except.ok (HttpResp.mk 200 (Except.ok (SteamTimeResponse.mk (SteamTimeInner.mk 42)))))
      (fun _ => Except.ok (HttpResp.mk 500
        (Except.ok (ConfirmationAcceptResponse.mk true))))).1 = some req :=
    ⟨_, rfl⟩
  obtain ⟨e, he, -⟩ := h.2 (Confirmation.mk "1" "n") acceptTag [65, 65, 61, 61] "d" "s"
      _ _ req (HttpResp.mk 500 (Except.ok (ConfirmationAcceptResponse.mk true)))
      hreq rfl (by decide)
  have hok : (SendConfirmationAjax (Confirmation.mk "1" "n") acceptTag
      [65, 65, 61, 61] "d" "s"
      (Except.ok (HttpResp.mk 200 (Except.ok (SteamTimeResponse.mk (SteamTimeInner.mk 42)))))
      (fun _ => Except.ok (HttpResp.mk 500
        (Except.ok (ConfirmationAcceptResponse.mk true))))).2 =
      Except.ok (ConfirmationAcceptResponse.mk true) := rfl
  rw [hok] at he
  exact Except.noConfusion he

/-- Claim C7 (amended): the list operation reports a non-200 status as
an unexpected-status fault distinct from a transport fault, while the
decide operation performs no status check — once its request succeeds at
transport level, its outcome is determined by the body alone, whatever
the status code. -/
theorem statusCheck_asymmetry :
    (∀ (secret : List Nat) (dev sid : String)
        (timeR : Except String (HttpResp SteamTimeResponse))
        (respond : ConfListRequest → Except String (HttpResp ConfirmationResponse))
        (ts : Int) (h : List Nat) (resp : HttpResp ConfirmationResponse),
        getSteamTime timeR = Except.ok ts →
        generateConfirmationHashForTime secret confTag ts = Except.ok h →
        respond (ConfListRequest.mk dev sid h ts "react" confTag) = Except.ok resp →
        resp.status ≠ 200 →
        (FetchConfirmations secret dev sid timeR respond).2 =
          Except.error (ConfError.unexpectedStatus resp.status) ∧
        ∀ m, ConfError.unexpectedStatus resp.status ≠ ConfError.transport m) ∧
    (∀ (confm : Confirmation) (tag is : List Nat) (dev sid : String)
        (timeR : Except String (HttpResp SteamTimeResponse))
        (respond : ConfDecideRequest → Except String (HttpResp ConfirmationAcceptResponse))
        (ts : Int) (h : List Nat) (resp : HttpResp ConfirmationAcceptResponse),
        getSteamTime timeR = Except.ok ts →
        generateConfirmationHashForTime is tag ts = Except.ok h →
        respond (ConfDecideRequest.mk (if tag = acceptTag then "allow" else "cancel")
          dev sid h ts tag confm.id confm.nonce) = Except.ok resp →
        (SendConfirmationAjax confm tag is dev sid timeR respond).2 =
          match resp.body with
          | Except.ok r => Except.ok r
          | Except.error msg => Except.error (ConfError.bodyError msg)) := by
  constructor
  · intro secret dev sid timeR respond ts h resp h1 h2 h3 hst
    refine ⟨?_, fun m hc => ConfError.noConfusion hc⟩
    simp only [FetchConfirmations, h1, h2, h3]
    simp [hst]
  · intro confm tag is dev sid timeR respond ts h resp h1 h2 h3
    simp only [SendConfirmationAjax, h1, h2, h3]
    cases hb : resp.body <;> simp [hb]

/-- Witness for the amended claim C7 at concrete status-500 responses. -/
theorem statusCheck_asymmetry_witness :
    (FetchConfirmations [65, 65, 61, 61] "d" "s"
        (Except.ok (HttpResp.mk 200 (Except.ok (SteamTimeResponse.mk (SteamTimeInner.mk 42)))))
        (fun _ => Except.ok (HttpResp.mk 500 (Except.ok (ConfirmationResponse.mk true))))).2 =
      Except.error (ConfError.unexpectedStatus 500) ∧
    (SendConfirmationAjax (Confirmation.mk "1" "n") acceptTag [65, 65, 61, 61] "d" "s"
        (Except.ok (HttpResp.mk 200 (Except.ok (SteamTimeResponse.mk (SteamTimeInner.mk 42)))))
        (fun _ => Except.ok (HttpResp.mk 500
          (Except.ok (ConfirmationAcceptResponse.mk true))))).2 =
      Except.ok (ConfirmationAcceptResponse.mk true) :=
  ⟨(statusCheck_asymmetry.1 [65, 65, 61, 61] "d" "s"
      (Except.ok (HttpResp.mk 200 (Except.ok (SteamTimeResponse.mk (SteamTimeInner.mk 42)))))
      (fun _ => Except.ok (HttpResp.mk 500 (Except.ok (ConfirmationResponse.mk true))))
      42 _ (HttpResp.mk 500 (Except.ok (ConfirmationResponse.mk true)))
      rfl rfl rfl (by decide)).1,
    statusCheck_asymmetry.2 (Confirmation.mk "1" "n") acceptTag [65, 65, 61, 61] "d" "s"
      (Except.ok (HttpResp.mk 200 (Except.ok (SteamTimeResponse.mk (SteamTimeInner.mk 42)))))
      (fun _ => Except.ok (HttpResp.mk 500
        (Except.ok (ConfirmationAcceptResponse.mk true))))
      42 _ (HttpResp.mk 500 (Except.ok (ConfirmationAcceptResponse.mk true)))
      rfl rfl rfl⟩

/-- Claim C8: each confirmation operation issues its request with the
timestamp obtained from the time oracle within that same call and a
token freshly derived from that timestamp — tagged with the listing tag
for the list operation and with the action's own tag for the decide
operation. -/
theorem fresh_time_per_call (timeR : Except String (HttpResp SteamTimeResponse))
    (ts : Int) (hts : getSteamTime timeR = Except.ok ts) :
    (∀ (secret : List Nat) (dev sid : String)
        (respond : ConfListRequest → Except String (HttpResp ConfirmationResponse))
        (h : List Nat),
        generateConfirmationHashForTime secret confTag ts = Except.ok h →
        (FetchConfirmations secret dev sid timeR respond).1 =
          some (ConfListRequest.mk dev sid h ts "react" confTag)) ∧
    (∀ (confm : Confirmation) (tag is : List Nat) (dev sid : String)
        (respond : ConfDecideRequest → Except String (HttpResp ConfirmationAcceptResponse))
        (h : List Nat),
        generateConfirmationHashForTime is tag ts = Except.ok h →
        (SendConfirmationAjax confm tag is dev sid timeR respond).1 =
          some (ConfDecideRequest.mk (if tag = acceptTag then "allow" else "cancel")
            dev sid h ts tag confm.id confm.nonce)) := by
  constructor
  · intro secret dev sid respond h hh
    simp only [FetchConfirmations, hts, hh]
    cases hr : respond (ConfListRequest.mk dev sid h ts "react" confTag) with
    | error msg => simp [hr]
    | ok resp =>
        by_cases hst : resp.status ≠ 200
        · simp [hr, hst]
        · cases hb : resp.body <;> simp [hr, hst, hb]
  · intro confm tag is dev sid respond h hh
    simp only [SendConfirmationAjax, hts, hh]
    cases hr : respond (ConfDecideRequest.mk (if tag = acceptTag then "allow" else "cancel")
        dev sid h ts tag confm.id confm.nonce) with
    | error msg => simp [hr]
    | ok resp => cases hb : resp.body <;> simp [hr, hb]

/-- Witness for claim C8 at a concrete oracle response. -/
theorem fresh_time_per_call_witness :
    getSteamTime (Except.ok (HttpResp.mk 200
        (Except.ok (SteamTimeResponse.mk (SteamTimeInner.mk 42))))) = Except.ok 42 ∧
    (∃ h, (FetchConfirmations [65, 65, 61, 61] "d" "s"
        (Except.ok (HttpResp.mk 200 (Except.ok (SteamTimeResponse.mk (SteamTimeInner.mk 42)))))
        (fun _ => Except.error "down")).1 =
      some (ConfListRequest.mk "d" "s" h 42 "react" confTag)) ∧
    (∃ h, (SendConfirmationAjax (Confirmation.mk "1" "n") acceptTag [65, 65, 61, 61] "d" "s"
        (Except.ok (HttpResp.mk 200 (Except.ok (SteamTimeResponse.mk (SteamTimeInner.mk 42)))))
        (fun _ => Except.error "down")).1 =
      some (ConfDecideRequest.mk (if acceptTag = acceptTag then "allow" else "cancel")
        "d" "s" h 42 acceptTag "1" "n")) :=
  ⟨rfl,
    ⟨_, (fresh_time_per_call (Except.ok (HttpResp.mk 200
        (Except.ok (SteamTimeResponse.mk (SteamTimeInner.mk 42))))) 42 rfl).1
      [65, 65, 61, 61] "d" "s" (fun _ => Except.error "down") _ rfl⟩,
    ⟨_, (fresh_time_per_call (Except.ok (HttpResp.mk 200
        (Except.ok (SteamTimeResponse.mk (SteamTimeInner.mk 42))))) 42 rfl).2
      (Confirmation.mk "1" "n") acceptTag [65, 65, 61, 61] "d" "s"
      (fun _ => Except.error "down") _ rfl⟩⟩

/-- Claim C10: fetching an inventory with no filters is exactly the
filterable fetch with an empty filter list, for every owner, app,
context and page script. -/
theorem getInventory_eq_filterable (sid appID contextID : Nat)
    (script : List Response) :
    GetInventory sid appID contextID script =
      GetFilterableInventory sid appID contextID script [] := rfl

end Steam
